import Mathlib

/-!
Shallow embedding of `cleverhans/model.py`: the abstract `Model` wrapper
interface and `KerasModelWrapper`, which exposes a wrapped Keras model's
hidden layers, logits and probabilities, caching the Keras submodels it
builds.

Symbolic tensors are an abstract inductive type: `Tensor.app input output x`
stands for the tensor obtained by calling a Keras `Model(input, output)` on
the tensor `x` (Keras reuses the symbolic graph from `input` to `output`,
substituting `x` for `input`). Python dictionaries are association lists with
first-match lookup; Python exceptions (KeyError, ValueError, missing layers)
become `Option`.
-/

namespace Cleverhans

/-- Symbolic tensors of the backend graph. `sym n` is an opaque tensor;
`app i o x` is the output of a Keras model with input `i` and output `o`
called on `x`. -/
inductive Tensor where
  | sym : Nat → Tensor
  | app : Tensor → Tensor → Tensor → Tensor
deriving DecidableEq, Repr

/-- Python `dict` lookup on an association list: first matching key wins
(entries are prepended on insert, so this gives the overwrite semantics of
`d[k] = v`). -/
def dlookup {α β : Type} [DecidableEq α] : List (α × β) → α → Option β
  | [], _ => none
  | p :: rest, k2 => if p.1 = k2 then some p.2 else dlookup rest k2

/-- A Keras layer as `model.py` observes it: its `name`, the `activation`
entry of `get_config()` when present, its symbolic `output` tensor, and for
each inbound node the names of its inbound layers
(`layer.inbound_nodes[i].inbound_layers[j].name`). -/
structure KLayer where
  name : String
  activation : Option String
  output : Tensor
  inboundLayerNames : List (List String)
deriving DecidableEq, Repr

/-- A Keras model as `model.py` observes it: its `layers` list and
`get_input_at(0)`. -/
structure KerasModel where
  layers : List KLayer
  inputAt0 : Tensor
deriving DecidableEq, Repr

/-- Keras `model.get_layer(name)`: the first layer with that name, or an
exception (`none`) when there is none. -/
def KerasModel.get_layer (m : KerasModel) (name : String) : Option KLayer :=
  m.layers.find? (fun l => l.name == name)

/-- A single-output Keras `Model(new_input, target_feat)` built by
`fprop_layer`. -/
structure SubModel where
  input : Tensor
  output : Tensor
deriving DecidableEq, Repr

/-- Calling a single-output Keras model on `x`. -/
def SubModel.call (m : SubModel) (x : Tensor) : Tensor :=
  Tensor.app m.input m.output x

/-- A multi-output Keras `Model(new_input, outputs)` built by
`_create_modelw`. -/
structure BuiltModel where
  input : Tensor
  outputs : List Tensor
deriving DecidableEq, Repr

/-- Calling a multi-output Keras model on `x`: one output tensor per model
output. -/
def BuiltModel.call (m : BuiltModel) (x : Tensor) : List Tensor :=
  m.outputs.map (fun o => Tensor.app m.input o x)

/-- An output dictionary mapping layer names to tensors, as stored in
`fprop_cache` values. -/
abbrev OutDict := List (String × Tensor)

/-! ### The abstract base class `Model` -/

/-- The mutable state of a base-class `Model` wrapper that its `fprop*`
methods touch: `self.fprop_cache` (keyed by `(input, train)`) and
`self.train`. `self.model` is never consulted by the base-class methods
embedded here. -/
structure ModelState where
  fprop_cache : List ((Tensor × Bool) × OutDict)
  train : Bool
deriving DecidableEq, Repr

namespace Model

/-- `Model.fprop_layer`: `return self.fprop_cache[(x, self.train)][layer]`.
Either missing key raises KeyError (`none`); nothing is written. -/
def fprop_layer (s : ModelState) (x : Tensor) (layer : String) :
    Option (Tensor × ModelState) :=
  match dlookup s.fprop_cache (x, s.train) with
  | none => none
  | some d =>
    match dlookup d layer with
    | none => none
    | some v => some (v, s)

/-- `Model.fprop`: on a cache hit for `(x, self.train)` return the cached
output dictionary; otherwise the abstract class raises (the assert itself
hits a missing key, then `NotImplementedError`). -/
def fprop (s : ModelState) (x : Tensor) : Option (OutDict × ModelState) :=
  match dlookup s.fprop_cache (x, s.train) with
  | some d => some (d, s)
  | none => none

end Model

/-! ### `KerasModelWrapper` -/

/-- The mutable state of a `KerasModelWrapper`: the wrapped Keras `model`,
the inherited `fprop_cache` and `train` flag, the per-layer submodel cache
`modelw_layer`, and the all-layers model cache `modelw`. -/
structure KerasWrapperState where
  model : KerasModel
  fprop_cache : List ((Tensor × Bool) × OutDict)
  train : Bool
  modelw_layer : List (String × SubModel)
  modelw : Option BuiltModel
deriving DecidableEq, Repr

namespace KerasModelWrapper

/-- `KerasModelWrapper.__init__`: empty caches, inference mode. -/
def init (m : KerasModel) : KerasWrapperState :=
  { model := m, fprop_cache := [], train := false,
    modelw_layer := [], modelw := none }

/-- `Model.set_train`: `self.train = train` (the `print` is I/O and carries
no state). -/
def set_train (s : KerasWrapperState) (t : Bool) : KerasWrapperState :=
  { s with train := t }

/-- `KerasModelWrapper.fprop_layer`: on a cache hit return the cached
submodel applied to `x`; otherwise build `Model(get_input_at(0),
get_layer(layer).output)`, cache it under `layer`, and apply it. A missing
layer raises (`none`). -/
def fprop_layer (s : KerasWrapperState) (x : Tensor) (layer : String) :
    Option (Tensor × KerasWrapperState) :=
  match dlookup s.modelw_layer layer with
  | some m => some (m.call x, s)
  | none =>
    match s.model.get_layer layer with
    | none => none
    | some l =>
      let new_model : SubModel := { input := s.model.inputAt0, output := l.output }
      some (new_model.call x,
            { s with modelw_layer := (layer, new_model) :: s.modelw_layer })

end KerasModelWrapper

/-- `KerasModelWrapper._get_softmax_name`: scan `self.model.layers` in order
and return the name of the first layer whose config has
`activation == 'softmax'`; raise (`none`) when there is none. -/
def KerasModel.get_softmax_name (m : KerasModel) : Option String :=
  (m.layers.find? (fun l => l.activation == some "softmax")).map (·.name)

/-- `KerasModelWrapper._get_logits_name`: the name of
`get_layer(softmax_name).inbound_nodes[0].inbound_layers[0]`. Any missing
piece raises (`none`). -/
def KerasModel.get_logits_name (m : KerasModel) : Option String := do
  let sname ← m.get_softmax_name
  let slayer ← m.get_layer sname
  let node ← slayer.inboundLayerNames.head?
  node.head?

namespace KerasModelWrapper

/-- `KerasModelWrapper.fprop_logits`: `fprop_layer(x, self._get_logits_name())`. -/
def fprop_logits (s : KerasWrapperState) (x : Tensor) :
    Option (Tensor × KerasWrapperState) := do
  let lname ← s.model.get_logits_name
  fprop_layer s x lname

/-- `KerasModelWrapper.fprop_probs`: `fprop_layer(x, self._get_softmax_name())`. -/
def fprop_probs (s : KerasWrapperState) (x : Tensor) :
    Option (Tensor × KerasWrapperState) := do
  let name ← s.model.get_softmax_name
  fprop_layer s x name

/-- `Model.__call__` as dispatched on a `KerasModelWrapper` instance:
`return self.fprop_probs(*args, **kwargs)`. -/
def call (s : KerasWrapperState) (x : Tensor) :
    Option (Tensor × KerasWrapperState) :=
  fprop_probs s x

end KerasModelWrapper

/-- `KerasModelWrapper.get_layer_names`: `[x.name for x in self.model.layers]`. -/
def KerasModel.get_layer_names (m : KerasModel) : List String :=
  m.layers.map (·.name)

/-- `KerasModelWrapper._create_modelw`: `Model(get_input_at(0),
[get_layer(name).output for name in get_layer_names()])`. -/
def KerasModel.create_modelw (m : KerasModel) : Option BuiltModel := do
  let outs ← m.get_layer_names.mapM (fun n => (m.get_layer n).map (·.output))
  some { input := m.inputAt0, outputs := outs }

/-- One assignment `d[k] = v` of a Python (Ordered)Dict rendered as a list of
its items: an existing key keeps its position and takes the new value, a new
key is appended. -/
def odictInsert (d : OutDict) (k : String) (v : Tensor) : OutDict :=
  if (dlookup d k).isSome then
    d.map (fun p => if p.1 = k then (k, v) else p)
  else d ++ [(k, v)]

/-- `OrderedDict(pairs)`: insert the pairs left to right into an empty dict. -/
def odictOfPairs (ps : OutDict) : OutDict :=
  ps.foldl (fun d p => odictInsert d p.1 p.2) []

namespace KerasModelWrapper

/-- `KerasModelWrapper.fprop`: build `self.modelw` via `_create_modelw` when
it is `None`, call it on `x`, and zip layer names with the outputs into an
`OrderedDict`. -/
def fprop (s : KerasWrapperState) (x : Tensor) :
    Option (OutDict × KerasWrapperState) := do
  let (mw, s1) ←
    match s.modelw with
    | some mw => some (mw, s)
    | none =>
      (s.model.create_modelw).map (fun mw => (mw, { s with modelw := some mw }))
  let layer_names := s1.model.get_layer_names
  let outputs := mw.call x
  some (odictOfPairs (layer_names.zip outputs), s1)

end KerasModelWrapper

/-- Modelled from the claim's words for comparison with the code: the name of
the LAST layer of the model whose config activation is `softmax` (the claim
reads `_get_softmax_name` as returning the final such layer). -/
def lastSoftmaxNameSpec (m : KerasModel) : Option String :=
  (m.layers.reverse.find? (fun l => l.activation == some "softmax")).map (·.name)

/-! ### Concrete instances used as witnesses -/

/-- A dense layer producing the logits of the demo model. -/
def denseLayer : KLayer :=
  { name := "dense", activation := none, output := Tensor.sym 10,
    inboundLayerNames := [["inp"]] }

/-- The softmax activation layer of the demo model; its one inbound node has
the dense layer as its one inbound layer. -/
def probsLayer : KLayer :=
  { name := "probs", activation := some "softmax", output := Tensor.sym 11,
    inboundLayerNames := [["dense"]] }

/-- A two-layer demo Keras model: dense then softmax. -/
def demoModel : KerasModel :=
  { layers := [denseLayer, probsLayer], inputAt0 := Tensor.sym 0 }

/-- A freshly initialised wrapper around the demo model. -/
def demoState : KerasWrapperState := KerasModelWrapper.init demoModel

/-- The submodel `fprop_layer` builds for the dense layer of the demo model. -/
def demoSub : SubModel := { input := Tensor.sym 0, output := Tensor.sym 10 }

/-- The submodel `fprop_layer` builds for the softmax layer of the demo model. -/
def demoSubProbs : SubModel := { input := Tensor.sym 0, output := Tensor.sym 11 }

/-- The wrapper state after `fprop_layer(x, "dense")` on the fresh demo state. -/
def demoS1 : KerasWrapperState := { demoState with modelw_layer := [("dense", demoSub)] }

/-- The wrapper state after a further `fprop_layer(x, "probs")`. -/
def demoS3 : KerasWrapperState :=
  { demoS1 with modelw_layer := [("probs", demoSubProbs), ("dense", demoSub)] }

/-- The all-layers model `_create_modelw` builds for the demo model. -/
def demoBuilt : BuiltModel :=
  { input := Tensor.sym 0, outputs := [Tensor.sym 10, Tensor.sym 11] }

/-- The wrapper state after the first `fprop` call on the fresh demo state. -/
def demoSW : KerasWrapperState := { demoState with modelw := some demoBuilt }

/-- The output dictionary `fprop` produces on the demo model for input `x`. -/
def demoDict (x : Tensor) : OutDict :=
  [("dense", Tensor.app (Tensor.sym 0) (Tensor.sym 10) x),
   ("probs", Tensor.app (Tensor.sym 0) (Tensor.sym 11) x)]

/-- A base-class wrapper state with one populated cache entry. -/
def demoModelState : ModelState :=
  { fprop_cache := [((Tensor.sym 5, false), [("dense", Tensor.sym 10)])],
    train := false }

/-- A layer named `a` with softmax activation. -/
def softmaxLayerA : KLayer :=
  { name := "a", activation := some "softmax", output := Tensor.sym 1,
    inboundLayerNames := [] }

/-- A layer named `b` with softmax activation. -/
def softmaxLayerB : KLayer :=
  { name := "b", activation := some "softmax", output := Tensor.sym 2,
    inboundLayerNames := [] }

/-- A model with two softmax-activated layers, `a` before `b`. -/
def twoSoftmaxModel : KerasModel :=
  { layers := [softmaxLayerA, softmaxLayerB], inputAt0 := Tensor.sym 0 }

/-! ### Claim theorems -/

/-- Claim C5: if `(x, self.train)` is a key of `fprop_cache`, `Model.fprop`
returns exactly the cached output dictionary stored under that key and leaves
the state (in particular `fprop_cache`) unchanged. -/
theorem Model.fprop_cache_hit (s : ModelState) (x : Tensor) (d : OutDict)
    (h : dlookup s.fprop_cache (x, s.train) = some d) :
    Model.fprop s x = some (d, s) := by
  simp [Model.fprop, h]

/-- Witness for C5 at a concrete cached state. -/
theorem Model.fprop_cache_hit_witness :
    dlookup demoModelState.fprop_cache (Tensor.sym 5, demoModelState.train) =
      some [("dense", Tensor.sym 10)] ∧
    Model.fprop demoModelState (Tensor.sym 5) =
      some ([("dense", Tensor.sym 10)], demoModelState) :=
  ⟨by decide, Model.fprop_cache_hit demoModelState (Tensor.sym 5) _ (by decide)⟩

/-- Claim C6: calling the wrapper directly (`Model.__call__`, as dispatched
on a `KerasModelWrapper` instance) returns exactly `fprop_probs(x)`: the
standard call syntax exposes the post-softmax probabilities. -/
theorem KerasModelWrapper.call_eq_fprop_probs (s : KerasWrapperState) (x : Tensor) :
    KerasModelWrapper.call s x = KerasModelWrapper.fprop_probs s x := rfl

/-- Claim C8: the base-class `Model.fprop_layer` raises KeyError (`none`)
when `(x, self.train)` is not a cache key; it never writes the cache, and it
succeeds with value `v` exactly when a stored dictionary under `(x, train)`
maps the given layer name to `v` (and then the state is returned unchanged). -/
theorem Model.fprop_layer_reads_cache_only (s : ModelState) (x : Tensor) (layer : String) :
    (dlookup s.fprop_cache (x, s.train) = none → Model.fprop_layer s x layer = none) ∧
    ∀ v s2, Model.fprop_layer s x layer = some (v, s2) ↔
      (s2 = s ∧ ∃ d, dlookup s.fprop_cache (x, s.train) = some d ∧
        dlookup d layer = some v) := by
  constructor
  · intro h
    simp [Model.fprop_layer, h]
  · intro v s2
    constructor
    · intro h
      cases h1 : dlookup s.fprop_cache (x, s.train) with
      | none => simp [Model.fprop_layer, h1] at h
      | some d =>
        cases h2 : dlookup d layer with
        | none => simp [Model.fprop_layer, h1, h2] at h
        | some v2 =>
          simp only [Model.fprop_layer, h1, h2, Option.some.injEq,
            Prod.mk.injEq] at h
          obtain ⟨rfl, rfl⟩ := h
          exact ⟨rfl, d, rfl, h2⟩
    · rintro ⟨rfl, d, hd, hv⟩
      unfold Model.fprop_layer
      rw [hd]
      simp [hv]

/-- Claim C9: the result of `KerasModelWrapper.fprop_layer` does not depend
on the `train` flag set by `set_train`: runs differing only in that flag
return the same symbolic output, because the per-layer cache is keyed by
layer name alone. -/
theorem KerasModelWrapper.fprop_layer_train_independent (s : KerasWrapperState)
    (t1 t2 : Bool) (x : Tensor) (layer : String) :
    (KerasModelWrapper.fprop_layer (KerasModelWrapper.set_train s t1) x layer).map Prod.fst =
    (KerasModelWrapper.fprop_layer (KerasModelWrapper.set_train s t2) x layer).map Prod.fst := by
  unfold KerasModelWrapper.fprop_layer KerasModelWrapper.set_train
  cases dlookup s.modelw_layer layer with
  | some m => rfl
  | none =>
    cases s.model.get_layer layer with
    | none => rfl
    | some l => rfl

/-- Claim C1: `fprop_logits(x)` is `fprop_layer(x, L)` where `L` is the name
of the first inbound layer of the first inbound node of the layer located by
`_get_softmax_name`: the pre-softmax (logits) layer. -/
theorem KerasModelWrapper.fprop_logits_presoftmax (s : KerasWrapperState) (x : Tensor)
    (sname : String) (slayer : KLayer) (node : List String) (lname : String)
    (h1 : s.model.get_softmax_name = some sname)
    (h2 : s.model.get_layer sname = some slayer)
    (h3 : slayer.inboundLayerNames.head? = some node)
    (h4 : node.head? = some lname) :
    s.model.get_logits_name = some lname ∧
    KerasModelWrapper.fprop_logits s x = KerasModelWrapper.fprop_layer s x lname := by
  have hg : s.model.get_logits_name = some lname := by
    simp [KerasModel.get_logits_name, h1, h2, h3, h4]
  exact ⟨hg, by simp [KerasModelWrapper.fprop_logits, hg]⟩

/-- Witness for C1 on the demo model: the softmax layer is `probs`, its first
inbound layer is `dense`, and `fprop_logits` goes through `fprop_layer` at
`dense`. -/
theorem KerasModelWrapper.fprop_logits_presoftmax_witness :
    demoState.model.get_softmax_name = some "probs" ∧
    demoState.model.get_layer "probs" = some probsLayer ∧
    probsLayer.inboundLayerNames.head? = some ["dense"] ∧
    (["dense"] : List String).head? = some "dense" ∧
    (demoState.model.get_logits_name = some "dense" ∧
     KerasModelWrapper.fprop_logits demoState (Tensor.sym 5) =
       KerasModelWrapper.fprop_layer demoState (Tensor.sym 5) "dense") :=
  ⟨by decide, by decide, by decide, rfl,
   KerasModelWrapper.fprop_logits_presoftmax demoState (Tensor.sym 5) "probs"
     probsLayer ["dense"] "dense" (by decide) (by decide) (by decide) rfl⟩

/-- Counterexample to C2 as stated: on a model whose layers `a` and `b` both
have softmax activation, `_get_softmax_name` returns `a`, the FIRST such
layer, not the last one (`b`). -/
theorem KerasModel.get_softmax_name_not_last :
    twoSoftmaxModel.get_softmax_name = some "a" ∧
    lastSoftmaxNameSpec twoSoftmaxModel = some "b" ∧
    twoSoftmaxModel.get_softmax_name ≠ lastSoftmaxNameSpec twoSoftmaxModel := by
  decide

/-- The first softmax-activated layer is what `List.find?` locates. -/
theorem find_softmax_append (pre post : List KLayer) (l : KLayer)
    (hl : l.activation = some "softmax")
    (hpre : ∀ p ∈ pre, p.activation ≠ some "softmax") :
    (pre ++ l :: post).find? (fun q => q.activation == some "softmax") = some l := by
  induction pre with
  | nil => simp [List.find?_cons, hl]
  | cons p ps ih =>
    have hp : p.activation ≠ some "softmax" := hpre p (List.mem_cons_self p ps)
    rw [List.cons_append, List.find?_cons_of_neg]
    · exact ih (fun q hq => hpre q (List.mem_cons_of_mem p hq))
    · simp [hp]

/-- Claim C2 (amended): for every model with at least one softmax-activated
layer, `_get_softmax_name` returns the name of the FIRST layer (in
`model.layers` order) whose configuration has activation `softmax`. -/
theorem KerasModel.get_softmax_name_first (m : KerasModel) (pre post : List KLayer)
    (l : KLayer)
    (hsplit : m.layers = pre ++ l :: post)
    (hl : l.activation = some "softmax")
    (hpre : ∀ p ∈ pre, p.activation ≠ some "softmax") :
    m.get_softmax_name = some l.name := by
  unfold KerasModel.get_softmax_name
  rw [hsplit, find_softmax_append pre post l hl hpre]
  rfl

/-- Witness for C2 (amended) on the demo model: `probs` is the first (and
only) softmax layer following the non-softmax `dense` layer. -/
theorem KerasModel.get_softmax_name_first_witness :
    demoModel.layers = [denseLayer] ++ probsLayer :: [] ∧
    probsLayer.activation = some "softmax" ∧
    (∀ p ∈ [denseLayer], p.activation ≠ some "softmax") ∧
    demoModel.get_softmax_name = some probsLayer.name :=
  ⟨rfl, rfl, by decide,
   KerasModel.get_softmax_name_first demoModel [denseLayer] [] probsLayer rfl rfl
     (by decide)⟩

/-- On a cache hit, `fprop_layer` applies the cached submodel and leaves the
state untouched. -/
theorem fprop_layer_hit (s : KerasWrapperState) (x : Tensor) (L : String)
    (m : SubModel) (hm : dlookup s.modelw_layer L = some m) :
    KerasModelWrapper.fprop_layer s x L = some (m.call x, s) := by
  simp [KerasModelWrapper.fprop_layer, hm]

/-- After a successful `fprop_layer` call, the per-layer cache holds an entry
for the requested layer. -/
theorem fprop_layer_stores (s : KerasWrapperState) (x : Tensor) (L : String)
    (r : Tensor) (s1 : KerasWrapperState)
    (h : KerasModelWrapper.fprop_layer s x L = some (r, s1)) :
    ∃ m : SubModel, dlookup s1.modelw_layer L = some m := by
  cases hm : dlookup s.modelw_layer L with
  | some m =>
    simp only [KerasModelWrapper.fprop_layer, hm, Option.some.injEq,
      Prod.mk.injEq] at h
    obtain ⟨-, rfl⟩ := h
    exact ⟨m, hm⟩
  | none =>
    cases hg : s.model.get_layer L with
    | none => simp [KerasModelWrapper.fprop_layer, hm, hg] at h
    | some l =>
      simp only [KerasModelWrapper.fprop_layer, hm, hg, Option.some.injEq,
        Prod.mk.injEq] at h
      obtain ⟨-, rfl⟩ := h
      exact ⟨{ input := s.model.inputAt0, output := l.output }, by simp [dlookup]⟩

/-- A `fprop_layer` call never replaces an existing per-layer cache entry. -/
theorem fprop_layer_preserves_entry (s : KerasWrapperState) (x : Tensor)
    (L L2 : String) (m : SubModel) (r : Tensor) (s2 : KerasWrapperState)
    (hm : dlookup s.modelw_layer L = some m)
    (h : KerasModelWrapper.fprop_layer s x L2 = some (r, s2)) :
    dlookup s2.modelw_layer L = some m := by
  cases h2 : dlookup s.modelw_layer L2 with
  | some m2 =>
    simp only [KerasModelWrapper.fprop_layer, h2, Option.some.injEq,
      Prod.mk.injEq] at h
    obtain ⟨-, rfl⟩ := h
    exact hm
  | none =>
    cases hg : s.model.get_layer L2 with
    | none => simp [KerasModelWrapper.fprop_layer, h2, hg] at h
    | some l =>
      simp only [KerasModelWrapper.fprop_layer, h2, hg, Option.some.injEq,
        Prod.mk.injEq] at h
      obtain ⟨-, rfl⟩ := h
      have hne : L2 ≠ L := by
        intro e
        rw [e, hm] at h2
        cases h2
      simp [dlookup, hne, hm]

/-- Claim C3: once `fprop_layer` has been called with layer `L`, the cache
holds a submodel `m` for `L`; every subsequent `fprop_layer(x2, L)` returns
`m` applied to `x2` with the state unchanged (no new Keras model is built),
and no later `fprop_layer` call (any layer `L2`) replaces the entry for `L`. -/
theorem KerasModelWrapper.fprop_layer_cached_after_first (s : KerasWrapperState)
    (x x2 x3 : Tensor) (L L2 : String) (r r3 : Tensor)
    (s1 s3 : KerasWrapperState)
    (h : KerasModelWrapper.fprop_layer s x L = some (r, s1))
    (h3 : KerasModelWrapper.fprop_layer s1 x3 L2 = some (r3, s3)) :
    ∃ m : SubModel, dlookup s1.modelw_layer L = some m ∧
      KerasModelWrapper.fprop_layer s1 x2 L = some (m.call x2, s1) ∧
      dlookup s3.modelw_layer L = some m := by
  obtain ⟨m, hm⟩ := fprop_layer_stores s x L r s1 h
  exact ⟨m, hm, fprop_layer_hit s1 x2 L m hm,
    fprop_layer_preserves_entry s1 x3 L L2 m r3 s3 hm h3⟩

/-- Witness for C3 on the demo model: a first call for `dense`, then a call
for `probs`; the `dense` entry is cached and preserved. -/
theorem KerasModelWrapper.fprop_layer_cached_after_first_witness :
    KerasModelWrapper.fprop_layer demoState (Tensor.sym 5) "dense" =
      some (Tensor.app (Tensor.sym 0) (Tensor.sym 10) (Tensor.sym 5), demoS1) ∧
    KerasModelWrapper.fprop_layer demoS1 (Tensor.sym 7) "probs" =
      some (Tensor.app (Tensor.sym 0) (Tensor.sym 11) (Tensor.sym 7), demoS3) ∧
    ∃ m : SubModel, dlookup demoS1.modelw_layer "dense" = some m ∧
      KerasModelWrapper.fprop_layer demoS1 (Tensor.sym 6) "dense" =
        some (m.call (Tensor.sym 6), demoS1) ∧
      dlookup demoS3.modelw_layer "dense" = some m :=
  ⟨by decide, by decide,
   KerasModelWrapper.fprop_layer_cached_after_first demoState (Tensor.sym 5)
     (Tensor.sym 6) (Tensor.sym 7) "dense" "probs"
     (Tensor.app (Tensor.sym 0) (Tensor.sym 10) (Tensor.sym 5))
     (Tensor.app (Tensor.sym 0) (Tensor.sym 11) (Tensor.sym 7)) demoS1 demoS3
     (by decide) (by decide)⟩

/-- Lookup distributes over append when the key is absent on the left. -/
theorem dlookup_append_of_none {α β : Type} [DecidableEq α] (a b : List (α × β))
    (k : α) (h : dlookup a k = none) : dlookup (a ++ b) k = dlookup b k := by
  induction a with
  | nil => rfl
  | cons p t ih =>
    by_cases e : p.1 = k
    · simp [dlookup, e] at h
    · simp only [dlookup, e, if_false] at h
      simp only [List.cons_append, dlookup, e, if_false]
      exact ih h

/-- Inserting a fresh key into an ordered dict appends it. -/
theorem odictInsert_fresh (d : OutDict) (k : String) (v : Tensor)
    (h : dlookup d k = none) : odictInsert d k v = d ++ [(k, v)] := by
  simp [odictInsert, h]

/-- Folding fresh, pairwise-distinct keys into an ordered dict appends them
in order. -/
theorem odict_foldl_fresh (ps : OutDict) :
    ∀ acc : OutDict, (∀ k ∈ ps.map Prod.fst, dlookup acc k = none) →
      (ps.map Prod.fst).Nodup →
      ps.foldl (fun d p => odictInsert d p.1 p.2) acc = acc ++ ps := by
  induction ps with
  | nil => intro acc _ _; simp
  | cons p t ih =>
    intro acc hfresh hnodup
    simp only [List.map_cons, List.nodup_cons] at hnodup
    have hfresh2 : ∀ k ∈ t.map Prod.fst, dlookup (acc ++ [(p.1, p.2)]) k = none := by
      intro k hk
      have h1 : dlookup acc k = none := hfresh k (by simp [hk])
      have h2 : p.1 ≠ k := by
        intro e
        exact hnodup.1 (by rw [e]; exact hk)
      rw [dlookup_append_of_none acc [(p.1, p.2)] k h1]
      simp [dlookup, h2]
    rw [List.foldl_cons, odictInsert_fresh acc p.1 p.2 (hfresh p.1 (by simp)),
        ih (acc ++ [(p.1, p.2)]) hfresh2 hnodup.2]
    simp

/-- `OrderedDict(pairs)` with pairwise-distinct keys is the pair list itself. -/
theorem odictOfPairs_of_nodup (ps : OutDict) (h : (ps.map Prod.fst).Nodup) :
    odictOfPairs ps = ps := by
  have := odict_foldl_fresh ps [] (fun k _ => rfl) h
  simpa [odictOfPairs] using this

/-- `find?` by name returns the member itself when names are pairwise
distinct. -/
theorem find_name_of_nodup (ls : List KLayer) (l : KLayer)
    (hmem : l ∈ ls) (hn : (ls.map KLayer.name).Nodup) :
    ls.find? (fun q => q.name == l.name) = some l := by
  induction ls with
  | nil => cases hmem
  | cons a t ih =>
    simp only [List.map_cons, List.nodup_cons] at hn
    rcases List.mem_cons.mp hmem with rfl | hmem2
    · simp [List.find?_cons]
    · have hne : a.name ≠ l.name := by
        intro e
        exact hn.1 (by rw [e]; exact List.mem_map_of_mem KLayer.name hmem2)
      have hb : (a.name == l.name) = false := by simp [hne]
      simp only [List.find?_cons, hb]
      exact ih hmem2 hn.2

/-- `get_layer` at a member layer's name returns that layer when layer names
are pairwise distinct. -/
theorem get_layer_of_mem_nodup (m : KerasModel) (l : KLayer)
    (hmem : l ∈ m.layers) (hn : m.get_layer_names.Nodup) :
    m.get_layer l.name = some l :=
  find_name_of_nodup m.layers l hmem hn

/-- Collecting each named layer's output succeeds and returns the outputs in
layer order. -/
theorem mapM_get_layer_output (m : KerasModel) (ls : List KLayer)
    (hall : ∀ l ∈ ls, m.get_layer l.name = some l) :
    (ls.map KLayer.name).mapM (fun n => (m.get_layer n).map KLayer.output)
      = some (ls.map KLayer.output) := by
  induction ls with
  | nil => rfl
  | cons a t ih =>
    simp only [List.map_cons, List.mapM_cons, hall a (List.mem_cons_self a t),
      ih (fun l hl => hall l (List.mem_cons_of_mem a hl))]
    rfl

/-- With pairwise-distinct layer names, `_create_modelw` builds the model
whose input is `get_input_at(0)` and whose outputs are all layer outputs in
order. -/
theorem create_modelw_of_nodup (m : KerasModel) (hn : m.get_layer_names.Nodup) :
    m.create_modelw =
      some { input := m.inputAt0, outputs := m.layers.map KLayer.output } := by
  have hall : ∀ l ∈ m.layers, m.get_layer l.name = some l :=
    fun l hl => get_layer_of_mem_nodup m l hl hn
  unfold KerasModel.create_modelw
  rw [show m.get_layer_names = m.layers.map KLayer.name from rfl,
      mapM_get_layer_output m m.layers hall]
  rfl

/-- `fprop` with a cached all-layers model: no rebuild, state unchanged. -/
theorem fprop_eq_of_modelw (s : KerasWrapperState) (x : Tensor) (mw : BuiltModel)
    (hw : s.modelw = some mw) :
    KerasModelWrapper.fprop s x =
      some (odictOfPairs (s.model.get_layer_names.zip (mw.call x)), s) := by
  simp [KerasModelWrapper.fprop, hw]

/-- `fprop` with no cached all-layers model builds one via `_create_modelw`
and stores it. -/
theorem fprop_eq_of_none (s : KerasWrapperState) (x : Tensor) (mw : BuiltModel)
    (hw : s.modelw = none) (hc : s.model.create_modelw = some mw) :
    KerasModelWrapper.fprop s x =
      some (odictOfPairs (s.model.get_layer_names.zip (mw.call x)),
            { s with modelw := some mw }) := by
  simp [KerasModelWrapper.fprop, hw, hc]

/-- Claim C4: `fprop` builds the all-layers model via `_create_modelw` only
on the first call (when `modelw` is `None`): after that call `modelw` holds
exactly `_create_modelw`'s result, every later call leaves the state
unchanged, and the later call's dictionary equals the one a fresh
construction (state with `modelw` cleared) would produce for its input. -/
theorem KerasModelWrapper.fprop_builds_modelw_once (s : KerasWrapperState)
    (x x2 : Tensor) (d d2 : OutDict) (s1 s2 : KerasWrapperState)
    (h0 : s.modelw = none)
    (h : KerasModelWrapper.fprop s x = some (d, s1))
    (h2 : KerasModelWrapper.fprop s1 x2 = some (d2, s2)) :
    s1.modelw = s.model.create_modelw ∧ s2 = s1 ∧
    (KerasModelWrapper.fprop { s1 with modelw := none } x2).map Prod.fst
      = some d2 := by
  cases hc : s.model.create_modelw with
  | none => simp [KerasModelWrapper.fprop, h0, hc] at h
  | some mw =>
    rw [fprop_eq_of_none s x mw h0 hc] at h
    simp only [Option.some.injEq, Prod.mk.injEq] at h
    obtain ⟨hd, rfl⟩ := h
    rw [fprop_eq_of_modelw _ x2 mw rfl] at h2
    simp only [Option.some.injEq, Prod.mk.injEq] at h2
    obtain ⟨hd2, rfl⟩ := h2
    refine ⟨rfl, rfl, ?_⟩
    show (KerasModelWrapper.fprop { s with modelw := none } x2).map Prod.fst
      = some d2
    rw [fprop_eq_of_none { s with modelw := none } x2 mw rfl hc]
    exact congrArg some hd2

/-- Witness for C4 on the demo model: the first `fprop` call stores the
all-layers model; a second call with a different input reuses it. -/
theorem KerasModelWrapper.fprop_builds_modelw_once_witness :
    demoState.modelw = none ∧
    KerasModelWrapper.fprop demoState (Tensor.sym 5) =
      some (demoDict (Tensor.sym 5), demoSW) ∧
    KerasModelWrapper.fprop demoSW (Tensor.sym 6) =
      some (demoDict (Tensor.sym 6), demoSW) ∧
    (demoSW.modelw = demoState.model.create_modelw ∧ demoSW = demoSW ∧
     (KerasModelWrapper.fprop { demoSW with modelw := none } (Tensor.sym 6)).map
        Prod.fst = some (demoDict (Tensor.sym 6))) :=
  ⟨rfl, by decide, by decide,
   KerasModelWrapper.fprop_builds_modelw_once demoState (Tensor.sym 5)
     (Tensor.sym 6) (demoDict (Tensor.sym 5)) (demoDict (Tensor.sym 6))
     demoSW demoSW rfl (by decide) (by decide)⟩

/-- Lookup in the canonical name-to-output pair list. -/
theorem dlookup_map_pairs (inp x : Tensor) (ls : List KLayer) (l : KLayer)
    (hmem : l ∈ ls) (hn : (ls.map KLayer.name).Nodup) :
    dlookup (ls.map (fun u => (u.name, Tensor.app inp u.output x))) l.name
      = some (Tensor.app inp l.output x) := by
  induction ls with
  | nil => cases hmem
  | cons a t ih =>
    simp only [List.map_cons, List.nodup_cons] at hn
    rcases List.mem_cons.mp hmem with rfl | hmem2
    · simp [dlookup]
    · have hne : a.name ≠ l.name := by
        intro e
        exact hn.1 (by rw [e]; exact List.mem_map_of_mem KLayer.name hmem2)
      simp only [dlookup, hne, if_false]
      exact ih hmem2 hn.2

/-- Claim C7: on a wrapper state whose `modelw` cache is empty or holds
`_create_modelw`'s result (the only reachable states), and whose layer names
are pairwise distinct (Keras enforces this for its models), `fprop(x)`
returns a dictionary whose keys are exactly `get_layer_names()` in the same
order, each mapped to the output tensor of the corresponding layer applied
to `x`. -/
theorem KerasModelWrapper.fprop_dict_matches_layers (s : KerasWrapperState)
    (x : Tensor) (d : OutDict) (s1 : KerasWrapperState)
    (hw : s.modelw = none ∨ s.modelw = s.model.create_modelw)
    (hn : s.model.get_layer_names.Nodup)
    (h : KerasModelWrapper.fprop s x = some (d, s1)) :
    d.map Prod.fst = s.model.get_layer_names ∧
    ∀ l ∈ s.model.layers,
      dlookup d l.name = some (Tensor.app s.model.inputAt0 l.output x) := by
  have hc := create_modelw_of_nodup s.model hn
  have hzip : s.model.get_layer_names.zip
        ((BuiltModel.mk s.model.inputAt0 (s.model.layers.map KLayer.output)).call x)
      = s.model.layers.map (fun u => (u.name, Tensor.app s.model.inputAt0 u.output x)) := by
    show (s.model.layers.map KLayer.name).zip
        ((s.model.layers.map KLayer.output).map
          (fun o => Tensor.app s.model.inputAt0 o x)) = _
    rw [List.map_map, List.zip_map']
    rfl
  have hkeys : (s.model.layers.map
        (fun u => (u.name, Tensor.app s.model.inputAt0 u.output x))).map Prod.fst
      = s.model.get_layer_names := by
    rw [List.map_map]
    rfl
  have hdict := odictOfPairs_of_nodup
    (s.model.layers.map (fun u => (u.name, Tensor.app s.model.inputAt0 u.output x)))
    (by rw [hkeys]; exact hn)
  have hd : d = s.model.layers.map
      (fun u => (u.name, Tensor.app s.model.inputAt0 u.output x)) := by
    rcases hw with hw | hw
    · rw [fprop_eq_of_none s x _ hw hc] at h
      simp only [Option.some.injEq, Prod.mk.injEq] at h
      rw [← h.1, hzip]
      exact hdict
    · rw [fprop_eq_of_modelw s x
        (BuiltModel.mk s.model.inputAt0 (s.model.layers.map KLayer.output))
        (by rw [hw, hc])] at h
      simp only [Option.some.injEq, Prod.mk.injEq] at h
      rw [← h.1, hzip]
      exact hdict
  constructor
  · rw [hd, hkeys]
  · intro l hl
    rw [hd]
    exact dlookup_map_pairs s.model.inputAt0 x s.model.layers l hl hn

/-- Witness for C7 on the demo model. -/
theorem KerasModelWrapper.fprop_dict_matches_layers_witness :
    (demoState.modelw = none ∨
      demoState.modelw = demoState.model.create_modelw) ∧
    demoState.model.get_layer_names.Nodup ∧
    KerasModelWrapper.fprop demoState (Tensor.sym 5) =
      some (demoDict (Tensor.sym 5), demoSW) ∧
    ((demoDict (Tensor.sym 5)).map Prod.fst = demoState.model.get_layer_names ∧
     ∀ l ∈ demoState.model.layers,
       dlookup (demoDict (Tensor.sym 5)) l.name =
         some (Tensor.app demoState.model.inputAt0 l.output (Tensor.sym 5))) :=
  ⟨Or.inl rfl, by decide, by decide,
   KerasModelWrapper.fprop_dict_matches_layers demoState (Tensor.sym 5)
     (demoDict (Tensor.sym 5)) demoSW (Or.inl rfl) (by decide) (by decide)⟩

/-- Claim C10: `set_train t` sets the `train` field to `t` and leaves every
other field of the wrapper (`model`, `fprop_cache`, `modelw_layer`, `modelw`)
unchanged. -/
theorem KerasModelWrapper.set_train_frame (s : KerasWrapperState) (t : Bool) :
    (KerasModelWrapper.set_train s t).train = t ∧
    (KerasModelWrapper.set_train s t).model = s.model ∧
    (KerasModelWrapper.set_train s t).fprop_cache = s.fprop_cache ∧
    (KerasModelWrapper.set_train s t).modelw_layer = s.modelw_layer ∧
    (KerasModelWrapper.set_train s t).modelw = s.modelw :=
  ⟨rfl, rfl, rfl, rfl, rfl⟩

end Cleverhans
